import Mathlib

/-!
# Verification of the slides-copy-url-current-slide content scripts

Shallow embedding of the URL-builder functions and of the cross-frame
request/response protocol of the repository, together with proofs of the
frozen claims about them.

Addresses and messages are modelled as Lean `String`s (lists of characters);
the JavaScript regular expressions used by the sources are embedded as
explicit left-to-right scanning functions with the exact backtracking
behaviour of the source patterns.
-/

namespace SlidesCopy

/-! ## Character classes used by the source regexes -/

/-- Decimal digit class `\d` of the source regexes. -/
def isDigitB (c : Char) : Bool := c.isDigit

/-- The class `[a-zA-Z0-9_-]` of content.js's `/^g[a-zA-Z0-9_-]+$/`. -/
def isWordDashB (c : Char) : Bool := c.isAlphanum || c == '_' || c == '-'

/-- Hexadecimal digit, for the `0x` prefix handling of JavaScript `parseInt`. -/
def isHexB (c : Char) : Bool :=
  c.isDigit || ('a' ≤ c && c ≤ 'f') || ('A' ≤ c && c ≤ 'F')

/-- The whitespace characters `parseInt` skips before reading digits. -/
def isJsSpaceB (c : Char) : Bool :=
  c == ' ' || c == '\t' || c == '\n' || c == '\r' ||
  c.toNat == 11 || c.toNat == 12 || c.toNat == 160 || c.toNat == 65279

/-! ## Linear scanning primitives (embedding of the regex engine) -/

/-- `dropPrefixQ lit s` returns the rest of `s` after `lit` when `lit` is a
prefix of `s`, and `none` otherwise. -/
def dropPrefixQ : List Char → List Char → Option (List Char)
  | [], s => some s
  | _ :: _, [] => none
  | l :: lt, c :: ct => if l = c then dropPrefixQ lt ct else none

/-- Longest prefix of characters satisfying `good` (the greedy `X+` capture). -/
def takeWhileB (good : Char → Bool) : List Char → List Char
  | [] => []
  | c :: t => if good c then c :: takeWhileB good t else []

/-- Leftmost match of the pattern `lit(G+)` where `G` is the class decided by
`good`: scan positions left to right; at the first position where the literal
matches and is followed by at least one `good` character, capture the maximal
run of `good` characters.  This is exactly how the source's
`href.match(/<lit>([^X]+)/)` and `href.match(/<lit>(\d+)/)` behave. -/
def scanCaptureP (lit : List Char) (good : Char → Bool) : List Char → Option (List Char)
  | [] => none
  | c :: tail =>
    match dropPrefixQ lit (c :: tail) with
    | some (r :: rs) =>
      if good r then some (takeWhileB good (r :: rs)) else scanCaptureP lit good tail
    | _ => scanCaptureP lit good tail

/-- Leftmost match of `#slide=id\.?([^&]+)` (content.js line 167, and the
`getCurrentSlideId` helpers of the enhanced scripts), including the
backtracking of the optional dot: after the literal `#slide=id`, a dot is
consumed greedily; if no `[^&]` character follows the dot, the engine
backtracks and the capture starts at the dot itself. -/
def scanSlideIdCap : List Char → Option (List Char)
  | [] => none
  | c :: tail =>
    match dropPrefixQ "#slide=id".data (c :: tail) with
    | some ('.' :: r2) =>
      match r2 with
      | x :: xs => if x = '&' then some ['.'] else some (takeWhileB (fun a => a != '&') (x :: xs))
      | [] => some ['.']
    | some (x :: xs) =>
      if x = '&' then scanSlideIdCap tail else some (takeWhileB (fun a => a != '&') (x :: xs))
    | _ => scanSlideIdCap tail

/-- The literal part of the document-id regex `/\/presentation\/d\/([^/]+)/`. -/
def deckLit : List Char := "/presentation/d/".data

/-- Embedding of `href.match(/\/presentation\/d\/([^/]+)/)` followed by taking
capture group 1, shared verbatim by content.js, content_old.js and all the
frame scripts. -/
def deckOf (href : String) : Option String :=
  (scanCaptureP deckLit (fun c => c != '/') href.data).map (fun l => (⟨l⟩ : String))

/-- Embedding of `href.match(/#slide=(\d+)/)` capture group 1. -/
def numSlideOf (href : String) : Option String :=
  (scanCaptureP "#slide=".data isDigitB href.data).map (fun l => (⟨l⟩ : String))

/-- Embedding of `href.match(/#slide=id\.?([^&]+)/)` capture group 1. -/
def idSlideOf (href : String) : Option String :=
  (scanSlideIdCap href.data).map (fun l => (⟨l⟩ : String))

/-! ## JavaScript `parseInt` NaN test and the anchored `g`-id regex -/

/-- `!isNaN(parseInt(s))` of content.js line 188: after optional whitespace
and an optional sign, `parseInt` needs a leading decimal digit (or, after a
`0x`/`0X` prefix, a leading hex digit) to produce a number. -/
def parseIntIsNum (s : String) : Bool :=
  let t := (s.data.dropWhile isJsSpaceB)
  let t2 := match t with
    | '+' :: r => r
    | '-' :: r => r
    | r => r
  match t2 with
  | '0' :: x :: r =>
    if x = 'x' ∨ x = 'X' then
      match r with
      | h :: _ => isHexB h
      | [] => false
    else true
  | c :: _ => isDigitB c
  | [] => false

/-- `slideNumber.match(/^g[a-zA-Z0-9_-]+$/)` of content.js line 185: the whole
string is a `g` followed by at least one word-or-dash character. -/
def isGId (s : String) : Bool :=
  match s.data with
  | 'g' :: rest => !rest.isEmpty && rest.all isWordDashB
  | _ => false

/-! ## URL builder of src/content.js (`buildSlideUrl`, lines 149-202) -/

/-- Slide-identifier resolution of content.js lines 164-179: first the
id-prefixed fragment pattern, then the numeric pattern, else `'0'`. -/
def resolveSlideContent (href : String) : String :=
  match idSlideOf href with
  | some s => s
  | none =>
    match numSlideOf href with
    | some s => s
    | none => "0"

/-- Template part of content.js lines 181-198, applied to the extracted
presentation id and resolved slide number. -/
def renderContent (mode pid sn : String) : String :=
  if mode = "PREVIEW" then
    if isGId sn then
      "https://docs.google.com/presentation/d/" ++ pid ++ "/preview?rm=minimal&slide=id." ++ sn
    else if parseIntIsNum sn then
      "https://docs.google.com/presentation/d/" ++ pid ++ "/preview?rm=minimal&slide=" ++ sn
    else
      "https://docs.google.com/presentation/d/" ++ pid ++ "/preview?rm=minimal&slide=id." ++ sn
  else
    "https://docs.google.com/presentation/d/" ++ pid ++ "/edit#slide=id." ++ sn

/-- `buildSlideUrl({ mode })` of src/content.js: extract the presentation id
(falling back to the unchanged address), resolve the slide number from the
fragment, substitute both into the per-mode template. -/
def buildSlideUrlContent (href mode : String) : String :=
  match deckOf href with
  | none => href
  | some pid => renderContent mode pid (resolveSlideContent href)

/-! ## URL builder of the cross-frame script (src/unnamed/part_000 lines 47-75) -/

/-- Template part of part_000 lines 66-71. -/
def renderP0 (mode deckId sn : String) : String :=
  if mode = "Preview" then
    "https://docs.google.com/presentation/d/" ++ deckId ++ "/preview?rm=minimal&slide=" ++ sn
  else
    "https://docs.google.com/presentation/d/" ++ deckId ++ "/edit#slide=" ++ sn

/-- `buildSlideUrl({ mode, slideNumber })` of part_000: a falsy (empty)
`slideNumber` is replaced by the numeric fragment match or `'0'`; only the
`/#slide=(\d+)/` pattern is consulted. -/
def buildSlideUrlP0 (href mode slideNumber : String) : String :=
  match deckOf href with
  | none => href
  | some deckId =>
    let sn := if slideNumber = "" then (numSlideOf href).getD "0" else slideNumber
    renderP0 mode deckId sn

/-! ## URL builder of the enhanced scripts (part_001 lines 535-607, part_002) -/

/-- `getCurrentSlideId()` of part_001/part_002: id-prefixed fragment pattern,
then numeric pattern, then the DOM `[aria-selected="true"]` fallback (passed
in explicitly as `domSlide`, since the DOM is an external collaborator), then
`'0'`. -/
def getCurrentSlideIdP1 (href : String) (domSlide : Option String) : String :=
  match idSlideOf href with
  | some s => s
  | none =>
    match numSlideOf href with
    | some s => s
    | none =>
      match domSlide with
      | some s => s
      | none => "0"

/-- Truthiness of an optional JavaScript string (`undefined`/`null`/`''` are
falsy). -/
def jsTruthyOpt : Option String → Bool
  | some s => s != ""
  | none => false

/-- `buildSlideUrl({ mode, exportFormat })` of part_001 lines 565-607. -/
def buildSlideUrlP1 (href : String) (domSlide : Option String)
    (mode : String) (exportFormat : Option String) : String :=
  match deckOf href with
  | none => href
  | some pid =>
    let sn := getCurrentSlideIdP1 href domSlide
    if jsTruthyOpt exportFormat then
      "https://docs.google.com/presentation/d/" ++ pid ++ "/export?format=" ++
        exportFormat.getD "" ++ "&slide=" ++ sn
    else
      match mode with
      | "DEMO" => "https://docs.google.com/presentation/d/" ++ pid ++ "/edit?rm=demo#slide=id." ++ sn
      | "PRESENT" => "https://docs.google.com/presentation/d/" ++ pid ++ "/present#slide=id." ++ sn
      | "MOBILE" => "https://docs.google.com/presentation/d/" ++ pid ++ "/mobilepresent#slide=id." ++ sn
      | _ => "https://docs.google.com/presentation/d/" ++ pid ++ "/edit#slide=id." ++ sn

/-- `buildSlideUrl({ mode })` of part_002 lines 1194-1214 (edit mode only). -/
def buildSlideUrlP2 (href : String) (domSlide : Option String) : String :=
  match deckOf href with
  | none => href
  | some pid =>
    "https://docs.google.com/presentation/d/" ++ pid ++ "/edit#slide=id." ++
      getCurrentSlideIdP1 href domSlide

/-! ## URL builder of src/content_old.js (`generateSlideUrl`, lines 185-211) -/

/-- `detectCurrentSlideNumber()` of content_old.js lines 214-232: the numeric
fragment pattern, else slide `0` (the id-pattern branch deliberately falls
through to the default). -/
def detectCurrentSlideNumberOld (href : String) : String :=
  match numSlideOf href with
  | some s => s
  | none => "0"

/-- `generateSlideUrl()` of content_old.js: unlike every `buildSlideUrl`
variant, it THROWS `'Unable to detect presentation ID'` when the
document-id pattern is absent (modelled as `Except.error`). `mode` is the
value of the mode selector (`'Edit Mode'` / `'Preview Mode'`), `slideInput`
the value of the slide-number input (empty when not filled in). -/
def generateSlideUrlOld (currentUrl mode slideInput : String) : Except String String :=
  match deckOf currentUrl with
  | none => .error "Unable to detect presentation ID"
  | some deckId =>
    let sn := if slideInput = "" then detectCurrentSlideNumberOld currentUrl else slideInput
    if mode = "Edit Mode" then
      .ok ("https://docs.google.com/presentation/d/" ++ deckId ++ "/edit?slide=0#slide=" ++ sn)
    else
      .ok ("https://docs.google.com/presentation/d/" ++ deckId ++ "/preview?rm=minimal&slide=" ++ sn)

/-! ## Cross-frame protocol, requester side (part_000 lines 86-101, 228-247)

The requester state is the `pending` map (`requestId → resolver`) together
with a log of promise settlements.  Resolvers are identified by the number of
`requestUrl` calls made so far (`nextCaller`); a settlement records which
caller's promise was resolved or rejected.  The single-threaded cooperative
scheduler is modelled by a sequence of atomic events:

* `issue rid` — the body of `requestUrl` up to and including
  `pending.set(requestId, resolve)` and the `postMessage` (registration
  happens before send; the send itself touches no requester state);
* `deliver ty rid url` — the `message` listener runs on an inbound message
  with the given fields;
* `fire rid c` — the timeout armed by caller `c`'s `requestUrl` call runs.
-/

/-- Outcome of a settled `requestUrl` promise. -/
inductive Outcome where
  | fulfilled (url : String)
  | rejected (msg : String)
deriving DecidableEq, Repr

/-- The rejection message of part_000 line 243. -/
def timeoutMsg : String := "Timed‑out waiting for URL"

/-- Lookup in the `pending` JavaScript `Map` (association list keyed by
requestId, insertion-ordered like a JS `Map`). -/
def pendGet : List (String × Nat) → String → Option Nat
  | [], _ => none
  | p :: t, k => if p.1 = k then some p.2 else pendGet t k

/-- `pending.set(k, v)`: replace the value of an existing key in place,
otherwise append. -/
def pendSet : List (String × Nat) → String → Nat → List (String × Nat)
  | [], k, v => [(k, v)]
  | p :: t, k, v => if p.1 = k then (k, v) :: t else p :: pendSet t k v

/-- `pending.delete(k)`. -/
def pendDel : List (String × Nat) → String → List (String × Nat)
  | [], _ => []
  | p :: t, k => if p.1 = k then pendDel t k else p :: pendDel t k

/-- Requester-side state: the pending table, the number of issued requests,
and the settlement log. -/
structure RState where
  pending : List (String × Nat)
  nextCaller : Nat
  settled : List (Nat × Outcome)
deriving DecidableEq, Repr

/-- The empty initial requester state (module load time). -/
def initR : RState := ⟨[], 0, []⟩

/-- Scheduler events interleaved on the requester's logical thread. -/
inductive REvent where
  | issue (rid : String)
  | deliver (ty rid url : String)
  | fire (rid : String) (caller : Nat)
deriving DecidableEq, Repr

/-- One scheduler step.

* `issue` is `requestUrl`'s `pending.set(requestId, resolve)` (part_000
  line 233), registering the next caller.
* `deliver` is the `message` listener of lines 88-101: it returns early
  unless `data.type === 'SLIDE_URL'` and `data.requestId` is truthy
  (non-empty); otherwise it looks the id up in `pending` and, only when an
  entry is found, resolves that caller and deletes the entry.
* `fire` is the timeout callback of lines 239-245: if (and only if) the id is
  still present it deletes the entry and rejects its own caller. -/
def stepR (s : RState) : REvent → RState
  | .issue rid =>
    { s with pending := pendSet s.pending rid s.nextCaller, nextCaller := s.nextCaller + 1 }
  | .deliver ty rid url =>
    if ty = "SLIDE_URL" ∧ rid ≠ "" then
      match pendGet s.pending rid with
      | some c =>
        { s with settled := s.settled ++ [(c, .fulfilled url)], pending := pendDel s.pending rid }
      | none => s
    else s
  | .fire rid c =>
    if (pendGet s.pending rid).isSome then
      { s with pending := pendDel s.pending rid,
               settled := s.settled ++ [(c, .rejected timeoutMsg)] }
    else s

/-- Run a sequence of scheduler events. -/
def runR (l : List REvent) (s : RState) : RState := l.foldl stepR s

/-- Number of settlements of caller `c` in the log. -/
def settledCount (c : Nat) (s : RState) : Nat :=
  s.settled.countP (fun x => decide (x.1 = c))

/-- An event is benign for the request `(rid, c)`: it is not a second `issue`
of the same requestId and not the timeout of a different request that would
share `rid` or `c`.  In the real system this holds whenever the generated
requestIds are pairwise distinct, since each `requestUrl` call arms exactly
one timeout for its own fresh id and caller. -/
def avoidsB (rid : String) (c : Nat) : REvent → Bool
  | .issue r => r != rid
  | .deliver _ _ _ => true
  | .fire r c' => r != rid && decide (c' ≠ c)

/-- A response event that can match the request `rid`: response-typed,
carrying `rid`, with `rid` non-empty (an empty id never passes the
listener's `!data.requestId` guard, so no response can match it). -/
def matchingB (rid : String) : REvent → Bool
  | .deliver ty r _ => ty == "SLIDE_URL" && r == rid && rid != ""
  | _ => false

/-! ## Cross-frame protocol, responder side (part_000 lines 30-41) -/

/-- Inbound request message fields destructured by the top-frame listener
(absent string fields are modelled as `""`, which is how their falsiness is
consumed downstream). -/
structure ReqMsg where
  ty : String
  mode : String
  slideNumber : String
  requestId : String
deriving DecidableEq, Repr

/-- Response message posted back to the iframe. -/
structure RespMsg where
  ty : String
  url : String
  requestId : String
deriving DecidableEq, Repr

/-- The top-frame `message` listener: discard anything that is not a
`REQUEST_SLIDE_URL` message (`!data || data.type !== 'REQUEST_SLIDE_URL'`),
otherwise reply with the built URL and the echoed requestId.  `none` input
models a message whose `data` is absent; `none` output models "no reply
sent". -/
def respondTop (href : String) (m : Option ReqMsg) : Option RespMsg :=
  match m with
  | none => none
  | some d =>
    if d.ty = "REQUEST_SLIDE_URL" then
      some ⟨"SLIDE_URL", buildSlideUrlP0 href d.mode d.slideNumber, d.requestId⟩
    else none

/-! ## Request-id generation (part_000 line 231)

`Math.random().toString(32).slice(2)`: `Math.random()` returns a double of
the form `k / 2^53` with `0 ≤ k < 2^53`; `Number.prototype.toString(32)`
prints `0` for zero and otherwise `0.` followed by the exact base-32
expansion of the fraction (terminating, at most 11 digits, trailing zero
digits omitted); `.slice(2)` drops the leading `0.` — or both characters of
`"0"`, leaving the empty string. -/

/-- Base-32 digit characters `0-9a-v` used by `Number.prototype.toString(32)`. -/
def b32digit (n : Nat) : Char :=
  if n < 10 then Char.ofNat (48 + n) else Char.ofNat (87 + n)

/-- Big-endian base-32 digits of `n` (fuelled division loop; `[]` for 0). -/
def natToB32 : Nat → Nat → List Char → List Char
  | 0, _, acc => acc
  | _ + 1, 0, acc => acc
  | fuel + 1, n, acc => natToB32 fuel (n / 32) (b32digit (n % 32) :: acc)

/-- Strip trailing `'0'` digit characters. -/
def dropTrailingZeros (l : List Char) : List Char :=
  ((l.reverse).dropWhile (fun c => c == '0')).reverse

/-- `(k / 2^53).toString(32)` for `0 ≤ k < 2^53`: since `k / 2^53 = 4k / 32^11`,
the fraction digits are the 11-digit base-32 representation of `4k`, with
trailing zeros omitted. -/
def jsToString32OfRandom (k : Nat) : String :=
  if k = 0 then "0"
  else
    let ds := natToB32 64 (4 * k) []
    let padded := List.replicate (11 - ds.length) '0' ++ ds
    "0." ++ (⟨dropTrailingZeros padded⟩ : String)

/-- `Math.random().toString(32).slice(2)` with `Math.random() = k / 2^53`. -/
def requestIdOfRandom (k : Nat) : String := (jsToString32OfRandom k).drop 2

/-! ## Enhanced-variant protocol (part_001 lines 343-380 and 930-957) -/

/-- Inbound `GET_SLIDE_URL` request of the enhanced variant (no requestId;
`mode`/`exportFormat` defaulted with `||`). -/
structure Msg1 where
  ty : String
  mode : String
  exportFormat : Option String
deriving DecidableEq, Repr

/-- `SLIDE_URL_RESPONSE` message: the success branch carries `url`, `mode`
and `exportFormat`; the catch branch carries `error` and the raw current
address as fallback `url`. -/
structure Resp1 where
  ty : String
  url : String
  error : Option String
  mode : Option String
  exportFormat : Option String
deriving DecidableEq, Repr

/-- `s || dflt` for strings. -/
def jsOr (s dflt : String) : String := if s = "" then dflt else s

/-- `o || null` for optional strings. -/
def jsOrNull : Option String → Option String
  | some s => if s = "" then none else some s
  | none => none

/-- `setupMainFrameMessageHandler` of part_001: on a `GET_SLIDE_URL` message,
call the URL builder inside `try`; on success reply with the URL, on an
exception reply with the error message and `location.href` as fallback URL.
The builder call's outcome is passed in as `build` (an `Except`, since the
handler's behaviour is determined by whether the call throws). -/
def mainFrameHandle (href : String) (build : String → Option String → Except String String)
    (m : Option Msg1) : Option Resp1 :=
  match m with
  | none => none
  | some d =>
    if d.ty = "GET_SLIDE_URL" then
      match build (jsOr d.mode "EDIT") (jsOrNull d.exportFormat) with
      | .ok url =>
        some { ty := "SLIDE_URL_RESPONSE", url := url, error := none,
               mode := some (jsOr d.mode "EDIT"), exportFormat := jsOrNull d.exportFormat }
      | .error e =>
        some { ty := "SLIDE_URL_RESPONSE", url := href, error := some e,
               mode := none, exportFormat := none }
    else none

/-- The `messageHandler` installed by `requestSlideUrlFromMainFrame`
(part_001 lines 936-947): ignore non-`SLIDE_URL_RESPONSE` messages; on a
response, clear the timeout and settle — rejecting with `data.error` when
that field is truthy (non-empty), resolving with `data.url` otherwise.
`some (.error e)` models `reject(new Error(e))` happening immediately,
before the 5-second timeout could fire. -/
def handleResp1 (m : Option Resp1) : Option (Except String String) :=
  match m with
  | none => none
  | some d =>
    if d.ty = "SLIDE_URL_RESPONSE" then
      some (match d.error with
            | some e => if e = "" then .ok d.url else .error e
            | none => .ok d.url)
    else none

/-! ## Lemmas about the pending-table operations -/

theorem pendGet_set_self (m : List (String × Nat)) (k : String) (v : Nat) :
    pendGet (pendSet m k v) k = some v := by
  induction m with
  | nil => simp [pendSet, pendGet]
  | cons p t ih =>
    by_cases h : p.1 = k
    · simp [pendSet, h, pendGet]
    · simp [pendSet, h, pendGet, ih]

theorem pendGet_set_ne (m : List (String × Nat)) (k' k : String) (v : Nat) (h : k' ≠ k) :
    pendGet (pendSet m k' v) k = pendGet m k := by
  induction m with
  | nil => simp [pendSet, pendGet, h]
  | cons p t ih =>
    by_cases hp : p.1 = k'
    · simp [pendSet, hp, pendGet, h, hp ▸ h]
    · by_cases hk : p.1 = k
      · simp [pendSet, hp, pendGet, hk, Ne.symm h]
      · simp [pendSet, hp, pendGet, hk, ih]

theorem pendGet_del_self (m : List (String × Nat)) (k : String) :
    pendGet (pendDel m k) k = none := by
  induction m with
  | nil => simp [pendDel, pendGet]
  | cons p t ih =>
    by_cases h : p.1 = k
    · simp [pendDel, h, ih]
    · simp [pendDel, h, pendGet, ih]

theorem pendGet_del_ne (m : List (String × Nat)) (k' k : String) (h : k' ≠ k) :
    pendGet (pendDel m k') k = pendGet m k := by
  induction m with
  | nil => simp [pendDel, pendGet]
  | cons p t ih =>
    by_cases hp : p.1 = k'
    · have : p.1 ≠ k := by rw [hp]; exact h
      simp [pendDel, hp, pendGet, this, ih, h]
    · by_cases hk : p.1 = k
      · simp [pendDel, hp, pendGet, hk, Ne.symm h]
      · simp [pendDel, hp, pendGet, hk, ih]

theorem mem_pendSet (m : List (String × Nat)) (k : String) (v : Nat)
    (p : String × Nat) (hp : p ∈ pendSet m k v) : p ∈ m ∨ p.2 = v := by
  induction m with
  | nil => simp [pendSet] at hp; simp [hp]
  | cons q t ih =>
    by_cases hq : q.1 = k
    · simp [pendSet, hq] at hp
      rcases hp with h | h
      · right; rw [h]
      · left; exact List.mem_cons_of_mem _ h
    · simp [pendSet, hq] at hp
      rcases hp with h | h
      · left; simp [h]
      · rcases ih h with h' | h'
        · left; exact List.mem_cons_of_mem _ h'
        · right; exact h'

theorem mem_pendDel (m : List (String × Nat)) (k : String)
    (p : String × Nat) (hp : p ∈ pendDel m k) : p ∈ m := by
  induction m with
  | nil => simp [pendDel] at hp
  | cons q t ih =>
    by_cases hq : q.1 = k
    · simp [pendDel, hq] at hp
      exact List.mem_cons_of_mem _ (ih hp)
    · simp [pendDel, hq] at hp
      rcases hp with h | h
      · simp [h]
      · exact List.mem_cons_of_mem _ (ih h)

theorem pendGet_mem (m : List (String × Nat)) (k : String) (c : Nat)
    (h : pendGet m k = some c) : (k, c) ∈ m := by
  induction m with
  | nil => simp [pendGet] at h
  | cons p t ih =>
    by_cases hp : p.1 = k
    · simp [pendGet, hp] at h
      have : p = (k, c) := by
        cases p; simp_all
      simp [this]
    · simp [pendGet, hp] at h
      exact List.mem_cons_of_mem _ (ih h)

/-! ## Run lemmas -/

theorem runR_nil (s : RState) : runR [] s = s := rfl

theorem runR_cons (e : REvent) (l : List REvent) (s : RState) :
    runR (e :: l) s = runR l (stepR s e) := rfl

theorem runR_append (l₁ l₂ : List REvent) (s : RState) :
    runR (l₁ ++ l₂) s = runR l₂ (runR l₁ s) := List.foldl_append ..

theorem nextCaller_step_mono (s : RState) (e : REvent) :
    s.nextCaller ≤ (stepR s e).nextCaller := by
  cases e with
  | issue rid => simp [stepR]
  | deliver ty rid url =>
    by_cases h : ty = "SLIDE_URL" ∧ rid ≠ ""
    · simp only [stepR, if_pos h]
      cases hg : pendGet s.pending rid <;> simp
    · simp [stepR, if_neg h]
  | fire rid c =>
    by_cases h : (pendGet s.pending rid).isSome
    · simp [stepR, h]
    · simp [stepR, h]

theorem nextCaller_run_mono (l : List REvent) (s : RState) :
    s.nextCaller ≤ (runR l s).nextCaller := by
  induction l generalizing s with
  | nil => exact Nat.le_refl _
  | cons e t ih =>
    exact Nat.le_trans (nextCaller_step_mono s e) (ih (stepR s e))

theorem mem_pendSet' (m : List (String × Nat)) (k : String) (v : Nat)
    (p : String × Nat) (hp : p ∈ pendSet m k v) : p = (k, v) ∨ p ∈ m := by
  induction m with
  | nil => simp [pendSet] at hp; simp [hp]
  | cons q t ih =>
    by_cases hq : q.1 = k
    · simp [pendSet, hq] at hp
      rcases hp with h | h
      · left; rw [h]
      · right; exact List.mem_cons_of_mem _ h
    · simp [pendSet, hq] at hp
      rcases hp with h | h
      · right; simp [h]
      · rcases ih h with h' | h'
        · left; exact h'
        · right; exact List.mem_cons_of_mem _ h'

theorem mem_pendDel_ne (m : List (String × Nat)) (k : String)
    (p : String × Nat) (hp : p ∈ pendDel m k) : p.1 ≠ k := by
  induction m with
  | nil => simp [pendDel] at hp
  | cons q t ih =>
    by_cases hq : q.1 = k
    · simp [pendDel, hq] at hp; exact ih hp
    · simp [pendDel, hq] at hp
      rcases hp with h | h
      · rw [h]; exact hq
      · exact ih h

/-! ## Step-equation lemmas for `stepR` -/

theorem stepR_issue_eq (s : RState) (rid : String) :
    stepR s (.issue rid) =
      { s with pending := pendSet s.pending rid s.nextCaller,
               nextCaller := s.nextCaller + 1 } := rfl

theorem stepR_deliver_drop (s : RState) (ty rid url : String)
    (h : ¬(ty = "SLIDE_URL" ∧ rid ≠ "")) : stepR s (.deliver ty rid url) = s := by
  simp [stepR, h]

theorem stepR_deliver_miss (s : RState) (ty rid url : String)
    (hg : ty = "SLIDE_URL" ∧ rid ≠ "") (h : pendGet s.pending rid = none) :
    stepR s (.deliver ty rid url) = s := by
  obtain ⟨h1, h2⟩ := hg
  subst h1
  simp [stepR, h2, h]

theorem stepR_deliver_hit (s : RState) (ty rid url : String) (c : Nat)
    (hg : ty = "SLIDE_URL" ∧ rid ≠ "") (h : pendGet s.pending rid = some c) :
    stepR s (.deliver ty rid url) =
      { s with settled := s.settled ++ [(c, .fulfilled url)],
               pending := pendDel s.pending rid } := by
  obtain ⟨h1, h2⟩ := hg
  subst h1
  simp [stepR, h2, h]

theorem stepR_fire_miss (s : RState) (rid : String) (c : Nat)
    (h : pendGet s.pending rid = none) : stepR s (.fire rid c) = s := by
  simp [stepR, h]

theorem stepR_fire_hit (s : RState) (rid : String) (c c' : Nat)
    (h : pendGet s.pending rid = some c') :
    stepR s (.fire rid c) =
      { s with pending := pendDel s.pending rid,
               settled := s.settled ++ [(c, .rejected timeoutMsg)] } := by
  simp [stepR, h]

theorem settledCount_snoc (c : Nat) (l : List (Nat × Outcome)) (x : Nat × Outcome) :
    (l ++ [x]).countP (fun y => decide (y.1 = c)) =
      l.countP (fun y => decide (y.1 = c)) + (if x.1 = c then 1 else 0) := by
  by_cases h : x.1 = c <;> simp [List.countP_append, List.countP_cons, h]

/-! ## The per-request invariants

`InvA rid c s`: the request `(rid, c)` is live — the table maps `rid` to
caller `c`, no other entry can settle `c`, and `c` has not been settled.

`InvD rid c out s`: the request has been settled exactly once, with outcome
`out`, and nothing in the table can settle `c` again. -/

def InvA (rid : String) (c : Nat) (s : RState) : Prop :=
  pendGet s.pending rid = some c ∧
  (∀ p ∈ s.pending, p.2 = c → p.1 = rid) ∧
  settledCount c s = 0

def InvD (rid : String) (c : Nat) (out : Outcome) (s : RState) : Prop :=
  pendGet s.pending rid = none ∧
  (∀ p ∈ s.pending, p.2 ≠ c) ∧
  settledCount c s = 1 ∧
  (c, out) ∈ s.settled ∧
  (∀ x ∈ s.settled, x.1 = c → x.2 = out)

theorem stepA_preserve (rid : String) (c : Nat) (s : RState) (e : REvent)
    (hlt : c < s.nextCaller) (hA : InvA rid c s)
    (hav : avoidsB rid c e = true) (hnm : matchingB rid e = false) :
    InvA rid c (stepR s e) ∧ c < (stepR s e).nextCaller := by
  obtain ⟨hget, honly, hcnt⟩ := hA
  cases e with
  | issue r =>
    simp only [avoidsB, bne_iff_ne] at hav
    rw [stepR_issue_eq]
    refine ⟨⟨?_, ?_, ?_⟩, ?_⟩
    · exact (pendGet_set_ne s.pending r rid s.nextCaller hav).trans hget
    · intro p hp hpc
      rcases mem_pendSet' s.pending r s.nextCaller p hp with h | h
      · exfalso; rw [h] at hpc; simp at hpc; omega
      · exact honly p h hpc
    · exact hcnt
    · exact Nat.lt_succ_of_lt hlt
  | deliver ty r url =>
    by_cases hg : ty = "SLIDE_URL" ∧ r ≠ ""
    · have hr : r ≠ rid := by
        intro hrr
        subst hrr
        simp [matchingB, hg.1, hg.2] at hnm
      cases hc' : pendGet s.pending r with
      | none => rw [stepR_deliver_miss s ty r url hg hc']; exact ⟨⟨hget, honly, hcnt⟩, hlt⟩
      | some c' =>
        have hc'ne : c' ≠ c := by
          intro hcc
          subst hcc
          exact hr (honly (r, c') (pendGet_mem _ _ _ hc') rfl)
        rw [stepR_deliver_hit s ty r url c' hg hc']
        refine ⟨⟨?_, ?_, ?_⟩, ?_⟩
        · exact (pendGet_del_ne s.pending r rid hr).trans hget
        · intro p hp hpc
          exact honly p (mem_pendDel s.pending r p hp) hpc
        · simp only [settledCount] at hcnt ⊢
          rw [settledCount_snoc]
          simp [hc'ne, hcnt]
        · exact hlt
    · rw [stepR_deliver_drop s ty r url hg]; exact ⟨⟨hget, honly, hcnt⟩, hlt⟩
  | fire r c' =>
    simp only [avoidsB, Bool.and_eq_true, bne_iff_ne, decide_eq_true_eq] at hav
    obtain ⟨hr, hc'⟩ := hav
    cases hp : pendGet s.pending r with
    | none => rw [stepR_fire_miss s r c' hp]; exact ⟨⟨hget, honly, hcnt⟩, hlt⟩
    | some cx =>
      rw [stepR_fire_hit s r c' cx hp]
      refine ⟨⟨?_, ?_, ?_⟩, ?_⟩
      · exact (pendGet_del_ne s.pending r rid hr).trans hget
      · intro p hp' hpc
        exact honly p (mem_pendDel s.pending r p hp') hpc
      · simp only [settledCount] at hcnt ⊢
        rw [settledCount_snoc]
        simp [hc', hcnt]
      · exact hlt

theorem stepA_matching (rid : String) (c : Nat) (s : RState) (url : String)
    (hne : rid ≠ "") (hA : InvA rid c s) :
    InvD rid c (.fulfilled url) (stepR s (.deliver "SLIDE_URL" rid url)) := by
  obtain ⟨hget, honly, hcnt⟩ := hA
  rw [stepR_deliver_hit s "SLIDE_URL" rid url c ⟨rfl, hne⟩ hget]
  refine ⟨?_, ?_, ?_, ?_, ?_⟩
  · exact pendGet_del_self s.pending rid
  · intro p hp hpc
    exact mem_pendDel_ne s.pending rid p hp (honly p (mem_pendDel s.pending rid p hp) hpc)
  · simp only [settledCount] at hcnt ⊢
    rw [settledCount_snoc]
    simp [hcnt]
  · exact List.mem_append_right _ (List.mem_singleton.mpr rfl)
  · intro x hx hxc
    rcases List.mem_append.mp hx with h | h
    · exfalso
      have := List.countP_eq_zero.mp hcnt x h
      simp [hxc] at this
    · rw [List.mem_singleton.mp h]

theorem stepA_fireSelf (rid : String) (c : Nat) (s : RState) (hA : InvA rid c s) :
    InvD rid c (.rejected timeoutMsg) (stepR s (.fire rid c)) := by
  obtain ⟨hget, honly, hcnt⟩ := hA
  rw [stepR_fire_hit s rid c c hget]
  refine ⟨?_, ?_, ?_, ?_, ?_⟩
  · exact pendGet_del_self s.pending rid
  · intro p hp hpc
    exact mem_pendDel_ne s.pending rid p hp (honly p (mem_pendDel s.pending rid p hp) hpc)
  · simp only [settledCount] at hcnt ⊢
    rw [settledCount_snoc]
    simp [hcnt]
  · exact List.mem_append_right _ (List.mem_singleton.mpr rfl)
  · intro x hx hxc
    rcases List.mem_append.mp hx with h | h
    · exfalso
      have := List.countP_eq_zero.mp hcnt x h
      simp [hxc] at this
    · rw [List.mem_singleton.mp h]

theorem stepD_preserve (rid : String) (c : Nat) (out : Outcome) (s : RState) (e : REvent)
    (hlt : c < s.nextCaller) (hD : InvD rid c out s) (hav : avoidsB rid c e = true) :
    InvD rid c out (stepR s e) ∧ c < (stepR s e).nextCaller := by
  obtain ⟨hget, hnoc, hcnt, hmem, hall⟩ := hD
  cases e with
  | issue r =>
    simp only [avoidsB, bne_iff_ne] at hav
    rw [stepR_issue_eq]
    refine ⟨⟨?_, ?_, ?_, ?_, ?_⟩, ?_⟩
    · exact (pendGet_set_ne s.pending r rid s.nextCaller hav).trans hget
    · intro p hp
      rcases mem_pendSet' s.pending r s.nextCaller p hp with h | h
      · rw [h]; simp; omega
      · exact hnoc p h
    · exact hcnt
    · exact hmem
    · exact hall
    · exact Nat.lt_succ_of_lt hlt
  | deliver ty r url =>
    by_cases hg : ty = "SLIDE_URL" ∧ r ≠ ""
    · cases hc' : pendGet s.pending r with
      | none =>
        rw [stepR_deliver_miss s ty r url hg hc']
        exact ⟨⟨hget, hnoc, hcnt, hmem, hall⟩, hlt⟩
      | some c' =>
        have hc'ne : c' ≠ c := hnoc (r, c') (pendGet_mem _ _ _ hc')
        have hr : r ≠ rid := by
          intro hrr; rw [hrr] at hc'; rw [hget] at hc'; exact Option.noConfusion hc'
        rw [stepR_deliver_hit s ty r url c' hg hc']
        refine ⟨⟨?_, ?_, ?_, ?_, ?_⟩, ?_⟩
        · exact (pendGet_del_ne s.pending r rid hr).trans hget
        · intro p hp
          exact hnoc p (mem_pendDel s.pending r p hp)
        · simp only [settledCount] at hcnt ⊢
          rw [settledCount_snoc]
          simp [hc'ne, hcnt]
        · exact List.mem_append_left _ hmem
        · intro x hx hxc
          rcases List.mem_append.mp hx with h | h
          · exact hall x h hxc
          · exfalso
            rw [List.mem_singleton.mp h] at hxc
            exact hc'ne hxc
        · exact hlt
    · rw [stepR_deliver_drop s ty r url hg]
      exact ⟨⟨hget, hnoc, hcnt, hmem, hall⟩, hlt⟩
  | fire r c' =>
    simp only [avoidsB, Bool.and_eq_true, bne_iff_ne, decide_eq_true_eq] at hav
    obtain ⟨hr, hc'⟩ := hav
    cases hp : pendGet s.pending r with
    | none =>
      rw [stepR_fire_miss s r c' hp]
      exact ⟨⟨hget, hnoc, hcnt, hmem, hall⟩, hlt⟩
    | some cx =>
      rw [stepR_fire_hit s r c' cx hp]
      refine ⟨⟨?_, ?_, ?_, ?_, ?_⟩, ?_⟩
      · exact (pendGet_del_ne s.pending r rid hr).trans hget
      · intro p hp'
        exact hnoc p (mem_pendDel s.pending r p hp')
      · simp only [settledCount] at hcnt ⊢
        rw [settledCount_snoc]
        simp [hc', hcnt]
      · exact List.mem_append_left _ hmem
      · intro x hx hxc
        rcases List.mem_append.mp hx with h | h
        · exact hall x h hxc
        · exfalso
          rw [List.mem_singleton.mp h] at hxc
          exact hc' hxc
      · exact hlt

theorem runD_preserve (rid : String) (c : Nat) (out : Outcome) (l : List REvent) (s : RState)
    (hl : ∀ e ∈ l, avoidsB rid c e = true) (hlt : c < s.nextCaller)
    (hD : InvD rid c out s) :
    InvD rid c out (runR l s) ∧ c < (runR l s).nextCaller := by
  induction l generalizing s with
  | nil => exact ⟨hD, hlt⟩
  | cons e t ih =>
    have h := stepD_preserve rid c out s e hlt hD (hl e (List.mem_cons_self e t))
    exact ih (stepR s e) (fun e' he' => hl e' (List.mem_cons_of_mem e he')) h.2 h.1

theorem runA_noMatching (rid : String) (c : Nat) (l : List REvent) (s : RState)
    (hl : ∀ e ∈ l, avoidsB rid c e = true) (hnm : ∀ e ∈ l, matchingB rid e = false)
    (hlt : c < s.nextCaller) (hA : InvA rid c s) :
    InvA rid c (runR l s) ∧ c < (runR l s).nextCaller := by
  induction l generalizing s with
  | nil => exact ⟨hA, hlt⟩
  | cons e t ih =>
    have h := stepA_preserve rid c s e hlt hA (hl e (List.mem_cons_self e t))
      (hnm e (List.mem_cons_self e t))
    exact ih (stepR s e) (fun e' he' => hl e' (List.mem_cons_of_mem e he'))
      (fun e' he' => hnm e' (List.mem_cons_of_mem e he')) h.2 h.1

theorem runA_cases (rid : String) (c : Nat) (l : List REvent) (s : RState)
    (hl : ∀ e ∈ l, avoidsB rid c e = true) (hlt : c < s.nextCaller) (hA : InvA rid c s) :
    c < (runR l s).nextCaller ∧
      ((InvA rid c (runR l s) ∧ ∀ e ∈ l, matchingB rid e = false) ∨
        ∃ url, InvD rid c (.fulfilled url) (runR l s)) := by
  induction l generalizing s with
  | nil => exact ⟨hlt, Or.inl ⟨hA, by simp⟩⟩
  | cons e t ih =>
    cases hm : matchingB rid e with
    | true =>
      have hdel : ∃ url, e = .deliver "SLIDE_URL" rid url ∧ rid ≠ "" := by
        cases e with
        | issue r => simp [matchingB] at hm
        | deliver ty r url =>
          simp only [matchingB, Bool.and_eq_true, beq_iff_eq, bne_iff_ne] at hm
          exact ⟨url, by rw [hm.1.1, hm.1.2], hm.2⟩
        | fire r c' => simp [matchingB] at hm
      obtain ⟨url, rfl, hne⟩ := hdel
      have hD := stepA_matching rid c s url hne hA
      have hlt' : c < (stepR s (.deliver "SLIDE_URL" rid url)).nextCaller :=
        Nat.lt_of_lt_of_le hlt (nextCaller_step_mono s _)
      have h := runD_preserve rid c (.fulfilled url) t (stepR s (.deliver "SLIDE_URL" rid url))
        (fun e' he' => hl e' (List.mem_cons_of_mem _ he')) hlt' hD
      exact ⟨h.2, Or.inr ⟨url, h.1⟩⟩
    | false =>
      have h := stepA_preserve rid c s e hlt hA (hl e (List.mem_cons_self e t)) hm
      have ih' := ih (stepR s e) (fun e' he' => hl e' (List.mem_cons_of_mem e he')) h.2 h.1
      refine ⟨ih'.1, ?_⟩
      rcases ih'.2 with ⟨hA', hnm'⟩ | hD'
      · refine Or.inl ⟨hA', ?_⟩
        intro e' he'
        rcases List.mem_cons.mp he' with h' | h'
        · rw [h']; exact hm
        · exact hnm' e' h'
      · exact Or.inr hD'

/-! ## The initial phase: anything run before the request is issued -/

theorem runPre (rid : String) (c : Nat) (l : List REvent) (s : RState)
    (hl : ∀ e ∈ l, avoidsB rid c e = true)
    (h0 : (∀ p ∈ s.pending, p.2 < s.nextCaller) ∧ (∀ p ∈ s.pending, p.1 ≠ rid) ∧
      settledCount c s = 0)
    (hfin : (runR l s).nextCaller ≤ c) :
    (∀ p ∈ (runR l s).pending, p.2 < (runR l s).nextCaller) ∧
      (∀ p ∈ (runR l s).pending, p.1 ≠ rid) ∧ settledCount c (runR l s) = 0 := by
  induction l generalizing s with
  | nil => exact h0
  | cons e t ih =>
    obtain ⟨hvals, hkeys, hcnt⟩ := h0
    rw [runR_cons] at hfin ⊢
    refine ih (stepR s e) (fun e' he' => hl e' (List.mem_cons_of_mem e he')) ?_ hfin
    have hstep_le : (stepR s e).nextCaller ≤ c :=
      Nat.le_trans (nextCaller_run_mono t (stepR s e)) hfin
    have hav := hl e (List.mem_cons_self e t)
    cases e with
    | issue r =>
      simp only [avoidsB, bne_iff_ne] at hav
      rw [stepR_issue_eq] at hstep_le ⊢
      refine ⟨?_, ?_, ?_⟩
      · intro p hp
        rcases mem_pendSet' s.pending r s.nextCaller p hp with h | h
        · rw [h]; simp
        · have := hvals p h; simp; omega
      · intro p hp
        rcases mem_pendSet' s.pending r s.nextCaller p hp with h | h
        · rw [h]; exact hav
        · exact hkeys p h
      · exact hcnt
    | deliver ty r url =>
      by_cases hg : ty = "SLIDE_URL" ∧ r ≠ ""
      · cases hc' : pendGet s.pending r with
        | none =>
          rw [stepR_deliver_miss s ty r url hg hc']
          exact ⟨hvals, hkeys, hcnt⟩
        | some c' =>
          have hmemp := pendGet_mem _ _ _ hc'
          have hc'lt : c' < s.nextCaller := hvals (r, c') hmemp
          rw [stepR_deliver_hit s ty r url c' hg hc'] at hstep_le ⊢
          have hc'ne : c' ≠ c := by simp at hstep_le; omega
          refine ⟨?_, ?_, ?_⟩
          · intro p hp
            exact hvals p (mem_pendDel s.pending r p hp)
          · intro p hp
            exact hkeys p (mem_pendDel s.pending r p hp)
          · simp only [settledCount] at hcnt ⊢
            rw [settledCount_snoc]
            simp [hc'ne, hcnt]
      · rw [stepR_deliver_drop s ty r url hg]
        exact ⟨hvals, hkeys, hcnt⟩
    | fire r c' =>
      simp only [avoidsB, Bool.and_eq_true, bne_iff_ne, decide_eq_true_eq] at hav
      cases hp : pendGet s.pending r with
      | none =>
        rw [stepR_fire_miss s r c' hp]
        exact ⟨hvals, hkeys, hcnt⟩
      | some cx =>
        rw [stepR_fire_hit s r c' cx hp]
        refine ⟨?_, ?_, ?_⟩
        · intro p hp'
          exact hvals p (mem_pendDel s.pending r p hp')
        · intro p hp'
          exact hkeys p (mem_pendDel s.pending r p hp')
        · simp only [settledCount] at hcnt ⊢
          rw [settledCount_snoc]
          simp [hav.2, hcnt]

/-- After the `issue` of a requestId that is never issued elsewhere, the
request is live: `InvA` holds with the caller created by that issue. -/
theorem issue_establishes (rid : String) (pre : List REvent)
    (hl : ∀ e ∈ pre, avoidsB rid ((runR pre initR).nextCaller) e = true) :
    InvA rid ((runR pre initR).nextCaller)
        (stepR (runR pre initR) (.issue rid)) ∧
      (runR pre initR).nextCaller <
        (stepR (runR pre initR) (.issue rid)).nextCaller := by
  have hpre := runPre rid ((runR pre initR).nextCaller) pre initR hl
    (by refine ⟨?_, ?_, ?_⟩ <;> simp [initR, settledCount, runR])
    (Nat.le_refl _)
  obtain ⟨hvals, hkeys, hcnt⟩ := hpre
  rw [stepR_issue_eq]
  refine ⟨⟨?_, ?_, ?_⟩, ?_⟩
  · exact pendGet_set_self (runR pre initR).pending rid (runR pre initR).nextCaller
  · intro p hp hpc
    rcases mem_pendSet' (runR pre initR).pending rid (runR pre initR).nextCaller p hp with h | h
    · rw [h]
    · exfalso; have := hvals p h; omega
  · exact hcnt
  · exact Nat.lt_succ_self _

/-- A response with an empty requestId never matches anything: the listener's
`!data.requestId` guard drops it. -/
theorem matchingB_empty (e : REvent) : matchingB "" e = false := by
  cases e <;> simp [matchingB]

/-- C1.  Exactly-once settlement: in any cooperative schedule around a single
issued request — arbitrary benign activity `pre` before `requestUrl`
registers the fresh id `rid` for caller `c`, arbitrary activity `mid` until
the armed timeout eventually runs, arbitrary activity `post` afterwards —
caller `c` is settled exactly once; if a matching response was delivered
before the timeout, the settlement is a fulfillment with a URL and the
timeout callback is a no-op (it does not change the state at all); if no
matching response was delivered before the timeout, the timeout rejects the
caller with the timeout error.  (A response carrying an empty requestId
never matches: the listener's falsy guard drops it; cf. C10.) -/
theorem claim_C1_exactly_once_settlement (pre mid post : List REvent) (rid : String) (c : Nat)
    (hc : c = (runR pre initR).nextCaller)
    (hav : ∀ e ∈ pre ++ mid ++ post, avoidsB rid c e = true) :
    settledCount c (runR (pre ++ .issue rid :: mid ++ .fire rid c :: post) initR) = 1 ∧
    ((∃ e ∈ mid, matchingB rid e = true) →
      (∃ url, (c, Outcome.fulfilled url) ∈
          (runR (pre ++ .issue rid :: mid ++ .fire rid c :: post) initR).settled) ∧
      runR (pre ++ .issue rid :: mid ++ [.fire rid c]) initR =
        runR (pre ++ .issue rid :: mid) initR) ∧
    ((∀ e ∈ mid, matchingB rid e = false) →
      (c, Outcome.rejected timeoutMsg) ∈
        (runR (pre ++ .issue rid :: mid ++ .fire rid c :: post) initR).settled) := by
  have hpre : ∀ e ∈ pre, avoidsB rid c e = true := fun e he => hav e (by simp [he])
  have hmid : ∀ e ∈ mid, avoidsB rid c e = true := fun e he => hav e (by simp [he])
  have hpost : ∀ e ∈ post, avoidsB rid c e = true := fun e he => hav e (by simp [he])
  subst hc
  set c := (runR pre initR).nextCaller with hcdef
  obtain ⟨hA2, hlt2⟩ := issue_establishes rid pre hpre
  set s2 := stepR (runR pre initR) (.issue rid) with hs2
  set sM := runR mid s2 with hsM
  have hT : runR (pre ++ .issue rid :: mid ++ .fire rid c :: post) initR =
      runR post (stepR sM (.fire rid c)) := by
    rw [runR_append, runR_cons, runR_append, runR_cons]
  have hT2 : runR (pre ++ .issue rid :: mid ++ [.fire rid c]) initR =
      stepR sM (.fire rid c) := by
    rw [runR_append, runR_cons, runR_append, runR_cons, runR_nil]
  have hT3 : runR (pre ++ .issue rid :: mid) initR = sM := by
    rw [runR_append, runR_cons]
  obtain ⟨hltM, hcases⟩ := runA_cases rid c mid s2 hmid hlt2 hA2
  rcases hcases with ⟨hAM, hnomatchM⟩ | ⟨url, hDM⟩
  · have hDfire := stepA_fireSelf rid c sM hAM
    have hltF : c < (stepR sM (.fire rid c)).nextCaller :=
      Nat.lt_of_lt_of_le hltM (nextCaller_step_mono sM _)
    obtain ⟨⟨hg, hn, hcnt, hmem, hall⟩, _⟩ :=
      runD_preserve rid c (.rejected timeoutMsg) post (stepR sM (.fire rid c)) hpost hltF hDfire
    refine ⟨by rw [hT]; exact hcnt, ?_, ?_⟩
    · rintro ⟨e, he, hme⟩
      exact Bool.noConfusion ((hnomatchM e he).symm.trans hme)
    · intro _
      rw [hT]; exact hmem
  · have hfire_eq : stepR sM (.fire rid c) = sM := stepR_fire_miss sM rid c hDM.1
    obtain ⟨⟨hg, hn, hcnt, hmem, hall⟩, _⟩ :=
      runD_preserve rid c (.fulfilled url) post (stepR sM (.fire rid c)) hpost
        (by rw [hfire_eq]; exact hltM) (by rw [hfire_eq]; exact hDM)
    refine ⟨by rw [hT]; exact hcnt, ?_, ?_⟩
    · intro _
      refine ⟨⟨url, by rw [hT]; exact hmem⟩, ?_⟩
      rw [hT2, hT3, hfire_eq]
    · intro hnm
      obtain ⟨hAM', _⟩ := runA_noMatching rid c mid s2 hmid hnm hlt2 hA2
      have : some c = none := hAM'.1.symm.trans hDM.1
      exact Option.noConfusion this

/-- Witness for C1: an empty prefix, a single matching response in `mid`, an
empty suffix. -/
theorem claim_C1_witness :
    settledCount 0 (runR ([] ++ .issue "r1" :: [REvent.deliver "SLIDE_URL" "r1" "https://u"] ++
        .fire "r1" 0 :: []) initR) = 1 ∧
    ((∃ e ∈ [REvent.deliver "SLIDE_URL" "r1" "https://u"], matchingB "r1" e = true) →
      (∃ url, (0, Outcome.fulfilled url) ∈
          (runR ([] ++ .issue "r1" :: [REvent.deliver "SLIDE_URL" "r1" "https://u"] ++
            .fire "r1" 0 :: []) initR).settled) ∧
      runR ([] ++ .issue "r1" :: [REvent.deliver "SLIDE_URL" "r1" "https://u"] ++
          [.fire "r1" 0]) initR =
        runR ([] ++ .issue "r1" :: [REvent.deliver "SLIDE_URL" "r1" "https://u"]) initR) ∧
    ((∀ e ∈ [REvent.deliver "SLIDE_URL" "r1" "https://u"], matchingB "r1" e = false) →
      (0, Outcome.rejected timeoutMsg) ∈
        (runR ([] ++ .issue "r1" :: [REvent.deliver "SLIDE_URL" "r1" "https://u"] ++
          .fire "r1" 0 :: []) initR).settled) :=
  claim_C1_exactly_once_settlement [] [REvent.deliver "SLIDE_URL" "r1" "https://u"] [] "r1" 0
    rfl (by decide)

/-- C2.  Stale and duplicate responses are dropped without effect: a
response-typed message whose requestId has no entry in the pending table
leaves the whole requester state unchanged (no resolver runs, the table is
untouched, and — the step function being total — no error is raised); and of
two responses carrying the same pending requestId, the first fulfills its
caller exactly once and the second is a complete no-op. -/
theorem claim_C2_stale_and_duplicate_responses (s : RState) (rid1 rid2 url url' : String)
    (c : Nat) (h1 : pendGet s.pending rid1 = none) (h2 : rid2 ≠ "")
    (h3 : pendGet s.pending rid2 = some c) :
    stepR s (.deliver "SLIDE_URL" rid1 url) = s ∧
    (stepR s (.deliver "SLIDE_URL" rid2 url)).settled =
      s.settled ++ [(c, Outcome.fulfilled url)] ∧
    stepR (stepR s (.deliver "SLIDE_URL" rid2 url)) (.deliver "SLIDE_URL" rid2 url') =
      stepR s (.deliver "SLIDE_URL" rid2 url) := by
  refine ⟨?_, ?_, ?_⟩
  · by_cases hz : rid1 = ""
    · exact stepR_deliver_drop s "SLIDE_URL" rid1 url (by simp [hz])
    · exact stepR_deliver_miss s "SLIDE_URL" rid1 url ⟨rfl, hz⟩ h1
  · rw [stepR_deliver_hit s "SLIDE_URL" rid2 url c ⟨rfl, h2⟩ h3]
  · rw [stepR_deliver_hit s "SLIDE_URL" rid2 url c ⟨rfl, h2⟩ h3]
    exact stepR_deliver_miss _ "SLIDE_URL" rid2 url' ⟨rfl, h2⟩
      (pendGet_del_self s.pending rid2)

/-- Witness for C2: a table holding only `("b", 5)`; a response for the
absent id `"a"` is dropped, and two responses for `"b"` fulfill caller 5
once. -/
theorem claim_C2_witness :
    stepR ⟨[("b", 5)], 6, []⟩ (.deliver "SLIDE_URL" "a" "u1") = ⟨[("b", 5)], 6, []⟩ ∧
    (stepR ⟨[("b", 5)], 6, []⟩ (.deliver "SLIDE_URL" "b" "u1")).settled =
      ([] : List (Nat × Outcome)) ++ [(5, Outcome.fulfilled "u1")] ∧
    stepR (stepR ⟨[("b", 5)], 6, []⟩ (.deliver "SLIDE_URL" "b" "u1"))
        (.deliver "SLIDE_URL" "b" "u2") =
      stepR ⟨[("b", 5)], 6, []⟩ (.deliver "SLIDE_URL" "b" "u1") :=
  claim_C2_stale_and_duplicate_responses ⟨[("b", 5)], 6, []⟩ "a" "b" "u1" "u2" 5
    (by decide) (by decide) (by decide)

/-- C3.  Concurrent request independence: with two distinct requestIds both
pending, delivering a response carrying the second id fulfills the second
request's caller (when that id is non-empty, the only case in which any
response can match — cf. C10), settles nobody else, and leaves the first
request's entry in the pending table untouched. -/
theorem claim_C3_concurrent_request_independence (s : RState) (rid1 rid2 url : String)
    (c1 c2 : Nat) (hne : rid1 ≠ rid2) (h1 : pendGet s.pending rid1 = some c1)
    (h2 : pendGet s.pending rid2 = some c2) :
    (rid2 ≠ "" → (stepR s (.deliver "SLIDE_URL" rid2 url)).settled =
      s.settled ++ [(c2, Outcome.fulfilled url)]) ∧
    (∀ x ∈ (stepR s (.deliver "SLIDE_URL" rid2 url)).settled,
      x ∈ s.settled ∨ x = (c2, Outcome.fulfilled url)) ∧
    pendGet (stepR s (.deliver "SLIDE_URL" rid2 url)).pending rid1 = some c1 := by
  by_cases hz : rid2 = ""
  · subst hz
    have hdrop : stepR s (.deliver "SLIDE_URL" "" url) = s :=
      stepR_deliver_drop s "SLIDE_URL" "" url (by simp)
    rw [hdrop]
    exact ⟨fun h => absurd rfl h, fun x hx => Or.inl hx, h1⟩
  · rw [stepR_deliver_hit s "SLIDE_URL" rid2 url c2 ⟨rfl, hz⟩ h2]
    refine ⟨fun _ => rfl, ?_, ?_⟩
    · intro x hx
      rcases List.mem_append.mp hx with h | h
      · exact Or.inl h
      · exact Or.inr (List.mem_singleton.mp h)
    · exact (pendGet_del_ne s.pending rid2 rid1 (Ne.symm hne)).trans h1

/-- Witness for C3: requests `"a" ↦ 0` and `"b" ↦ 1` both pending; the
response for `"b"` fulfills caller 1 only and leaves `"a" ↦ 0` pending. -/
theorem claim_C3_witness :
    ("b" ≠ "" → (stepR ⟨[("a", 0), ("b", 1)], 2, []⟩ (.deliver "SLIDE_URL" "b" "u")).settled =
      ([] : List (Nat × Outcome)) ++ [(1, Outcome.fulfilled "u")]) ∧
    (∀ x ∈ (stepR ⟨[("a", 0), ("b", 1)], 2, []⟩ (.deliver "SLIDE_URL" "b" "u")).settled,
      x ∈ ([] : List (Nat × Outcome)) ∨ x = (1, Outcome.fulfilled "u")) ∧
    pendGet (stepR ⟨[("a", 0), ("b", 1)], 2, []⟩ (.deliver "SLIDE_URL" "b" "u")).pending "a" =
      some 0 :=
  claim_C3_concurrent_request_independence ⟨[("a", 0), ("b", 1)], 2, []⟩ "a" "b" "u" 0 1
    (by decide) (by decide) (by decide)

/-- C10.  The requester drops responses with a falsy requestId, and the
generated id can be empty: `Math.random().toString(32).slice(2)` is `""`
exactly when the random double is `0` (`(0).toString(32)` is `"0"` and
slicing removes both characters).  A request issued with the empty id can
therefore never be matched by any response — the listener's `!data.requestId`
guard drops every message carrying it, whatever the pending table holds — and
in every schedule in which its timeout eventually runs it settles exactly
once, by timeout rejection, never by fulfillment. -/
theorem claim_C10_empty_requestId_times_out (pre mid post : List REvent) (c : Nat)
    (hc : c = (runR pre initR).nextCaller)
    (hav : ∀ e ∈ pre ++ mid ++ post, avoidsB "" c e = true) :
    requestIdOfRandom 0 = "" ∧
    (∀ s ty url, stepR s (.deliver ty "" url) = s) ∧
    settledCount c (runR (pre ++ .issue "" :: mid ++ .fire "" c :: post) initR) = 1 ∧
    (c, Outcome.rejected timeoutMsg) ∈
      (runR (pre ++ .issue "" :: mid ++ .fire "" c :: post) initR).settled ∧
    (∀ url, (c, Outcome.fulfilled url) ∉
      (runR (pre ++ .issue "" :: mid ++ .fire "" c :: post) initR).settled) := by
  have hpre : ∀ e ∈ pre, avoidsB "" c e = true := fun e he => hav e (by simp [he])
  have hmid : ∀ e ∈ mid, avoidsB "" c e = true := fun e he => hav e (by simp [he])
  have hpost : ∀ e ∈ post, avoidsB "" c e = true := fun e he => hav e (by simp [he])
  subst hc
  set c := (runR pre initR).nextCaller with hcdef
  obtain ⟨hA2, hlt2⟩ := issue_establishes "" pre hpre
  set s2 := stepR (runR pre initR) (.issue "") with hs2
  obtain ⟨hAM, hltM⟩ := runA_noMatching "" c mid s2 hmid (fun e _ => matchingB_empty e) hlt2 hA2
  set sM := runR mid s2 with hsM
  have hT : runR (pre ++ .issue "" :: mid ++ .fire "" c :: post) initR =
      runR post (stepR sM (.fire "" c)) := by
    rw [runR_append, runR_cons, runR_append, runR_cons]
  have hDfire := stepA_fireSelf "" c sM hAM
  have hltF : c < (stepR sM (.fire "" c)).nextCaller :=
    Nat.lt_of_lt_of_le hltM (nextCaller_step_mono sM _)
  obtain ⟨⟨hg, hn, hcnt, hmem, hall⟩, _⟩ :=
    runD_preserve "" c (.rejected timeoutMsg) post (stepR sM (.fire "" c)) hpost hltF hDfire
  refine ⟨by decide, ?_, by rw [hT]; exact hcnt, by rw [hT]; exact hmem, ?_⟩
  · intro s ty url
    exact stepR_deliver_drop s ty "" url (by simp)
  · intro url hmemf
    rw [hT] at hmemf
    exact Outcome.noConfusion (hall (c, Outcome.fulfilled url) hmemf rfl)

/-- Witness for C10: a matching-looking response for the empty id is
delivered before the timeout, yet the request still settles by timeout. -/
theorem claim_C10_witness :
    requestIdOfRandom 0 = "" ∧
    (∀ s ty url, stepR s (.deliver ty "" url) = s) ∧
    settledCount 0 (runR ([] ++ .issue "" :: [REvent.deliver "SLIDE_URL" "" "https://u"] ++
      .fire "" 0 :: []) initR) = 1 ∧
    (0, Outcome.rejected timeoutMsg) ∈
      (runR ([] ++ .issue "" :: [REvent.deliver "SLIDE_URL" "" "https://u"] ++
        .fire "" 0 :: []) initR).settled ∧
    (∀ url, (0, Outcome.fulfilled url) ∉
      (runR ([] ++ .issue "" :: [REvent.deliver "SLIDE_URL" "" "https://u"] ++
        .fire "" 0 :: []) initR).settled) :=
  claim_C10_empty_requestId_times_out [] [REvent.deliver "SLIDE_URL" "" "https://u"] [] 0
    rfl (by decide)

/-! ## Correctness of the leftmost-match scan -/

theorem dropPrefixQ_append (lit rest : List Char) :
    dropPrefixQ lit (lit ++ rest) = some rest := by
  induction lit with
  | nil => rfl
  | cons l lt ih => simp [dropPrefixQ, ih]

theorem dropPrefixQ_some (lit : List Char) :
    ∀ s r, dropPrefixQ lit s = some r → s = lit ++ r := by
  induction lit with
  | nil => intro s r h; simp [dropPrefixQ] at h; simp [h]
  | cons l lt ih =>
    intro s r h
    cases s with
    | nil => simp [dropPrefixQ] at h
    | cons c ct =>
      by_cases hc : l = c
      · subst hc
        simp [dropPrefixQ] at h
        rw [List.cons_append, ih ct r h]
      · simp [dropPrefixQ, hc] at h

theorem takeWhileB_exact (good : Char → Bool) (cap suf : List Char)
    (hgood : ∀ x ∈ cap, good x = true)
    (hstop : ∀ x xs, suf = x :: xs → good x = false) :
    takeWhileB good (cap ++ suf) = cap := by
  induction cap with
  | nil =>
    cases suf with
    | nil => rfl
    | cons x xs => simp [takeWhileB, hstop x xs rfl]
  | cons c ct ih =>
    have hc := hgood c (List.mem_cons_self c ct)
    rw [List.cons_append]
    simp only [takeWhileB, hc, if_true, List.append_eq]
    rw [ih (fun x hx => hgood x (List.mem_cons_of_mem c hx))]

/-- `noOccurBefore lit k s = true` iff the literal `lit` is not a prefix of
any of the first `k` suffixes of `s` (i.e. does not occur at positions
`0..k-1`). -/
def noOccurBefore (lit : List Char) : Nat → List Char → Bool
  | 0, _ => true
  | _ + 1, [] => true
  | k + 1, c :: tail => !(dropPrefixQ lit (c :: tail)).isSome && noOccurBefore lit k tail

theorem noOccurBefore_sound (lit : List Char) (hlit : lit ≠ []) :
    ∀ (k : Nat) (s : List Char), noOccurBefore lit k s = true →
      ∀ s1 s2, s = s1 ++ (lit ++ s2) → k ≤ s1.length := by
  intro k
  induction k with
  | zero => intro s _ s1 s2 _; exact Nat.zero_le _
  | succ k ih =>
    intro s h s1 s2 hs
    cases s1 with
    | nil =>
      exfalso
      rw [List.nil_append] at hs
      subst hs
      obtain ⟨l, lt, rfl⟩ : ∃ l lt, lit = l :: lt := by
        cases lit with
        | nil => exact absurd rfl hlit
        | cons a b => exact ⟨a, b, rfl⟩
      rw [List.cons_append] at h
      simp only [noOccurBefore, Bool.and_eq_true, Bool.not_eq_true'] at h
      obtain ⟨h1, _⟩ := h
      have hd := dropPrefixQ_append (l :: lt) s2
      rw [List.cons_append] at hd
      rw [hd] at h1
      simp at h1
    | cons a s1' =>
      rw [List.cons_append] at hs
      subst hs
      simp only [noOccurBefore, Bool.and_eq_true] at h
      have := ih (s1' ++ (lit ++ s2)) h.2 s1' s2 rfl
      simp only [List.length_cons]
      omega

theorem scanCaptureP_found (lit : List Char) (good : Char → Bool) (pre cap suf : List Char)
    (hlit : lit ≠ []) (hcap : cap ≠ []) (hgood : ∀ x ∈ cap, good x = true)
    (hstop : ∀ x xs, suf = x :: xs → good x = false)
    (hfirst : ∀ s1 s2, pre ++ (lit ++ (cap ++ suf)) = s1 ++ (lit ++ s2) →
      pre.length ≤ s1.length) :
    scanCaptureP lit good (pre ++ (lit ++ (cap ++ suf))) = some cap := by
  induction pre with
  | nil =>
    obtain ⟨l, lt, rfl⟩ : ∃ l lt, lit = l :: lt := by
      cases lit with
      | nil => exact absurd rfl hlit
      | cons a b => exact ⟨a, b, rfl⟩
    obtain ⟨x, xs, rfl⟩ : ∃ x xs, cap = x :: xs := by
      cases cap with
      | nil => exact absurd rfl hcap
      | cons a b => exact ⟨a, b, rfl⟩
    have hdp := dropPrefixQ_append (l :: lt) ((x :: xs) ++ suf)
    rw [List.cons_append] at hdp
    rw [List.cons_append] at hdp
    have hx := hgood x (List.mem_cons_self x xs)
    have htw := takeWhileB_exact good (x :: xs) suf hgood hstop
    rw [List.cons_append] at htw
    rw [List.nil_append, List.cons_append]
    simp only [scanCaptureP]
    rw [List.cons_append]
    rw [hdp]
    simp [hx, htw]
  | cons a pre' ih =>
    have hnp : dropPrefixQ lit (a :: (pre' ++ (lit ++ (cap ++ suf)))) = none := by
      cases hdp : dropPrefixQ lit (a :: (pre' ++ (lit ++ (cap ++ suf)))) with
      | none => rfl
      | some r =>
        exfalso
        have hdec := dropPrefixQ_some lit _ r hdp
        have := hfirst [] r (by rw [List.nil_append, List.cons_append, hdec])
        simp at this
    rw [List.cons_append]
    simp only [scanCaptureP]
    rw [hnp]
    exact ih (fun s1 s2 hs => by
      have := hfirst (a :: s1) s2 (by rw [List.cons_append, hs, List.cons_append])
      simpa using this)

/-! ## Claims about the URL builders -/

/-- Counterexample to C4 as stated: the content_old.js variant
`generateSlideUrl` — the builder called from that file's share-dialog click
handler `handleCopyButtonClick` — RAISES `'Unable to detect presentation ID'`
on an address lacking the `/presentation/d/<id>` pattern instead of returning
the address unchanged, so "no error is ever raised ... across all variants of
the builder present in the repository" is false. -/
theorem claim_C4_counterexample :
    generateSlideUrlOld "https://example.com/current" "Edit Mode" "" =
      Except.error "Unable to detect presentation ID" ∧
    generateSlideUrlOld "https://example.com/current" "Edit Mode" "" ≠
      Except.ok "https://example.com/current" := by
  have h1 : generateSlideUrlOld "https://example.com/current" "Edit Mode" "" =
      Except.error "Unable to detect presentation ID" := rfl
  exact ⟨h1, fun h => Except.noConfusion (h1.symm.trans h)⟩

/-- C4 (amended).  For every address in which the document-identifier pattern
is not found, all `buildSlideUrl` variants (content.js, part_000's
cross-frame script, part_001's and part_002's enhanced scripts) return the
original input address unchanged and, being total, raise no error; the
content_old.js variant `generateSlideUrl` — the one its share-dialog click
handler calls — instead throws `'Unable to detect presentation ID'`. -/
theorem claim_C4_soft_failure_amended (href mode slideIn : String)
    (domSlide fmtOpt : Option String) (h : deckOf href = none) :
    buildSlideUrlContent href mode = href ∧
    buildSlideUrlP0 href mode slideIn = href ∧
    buildSlideUrlP1 href domSlide mode fmtOpt = href ∧
    buildSlideUrlP2 href domSlide = href ∧
    generateSlideUrlOld href mode slideIn =
      Except.error "Unable to detect presentation ID" := by
  refine ⟨?_, ?_, ?_, ?_, ?_⟩ <;>
    simp [buildSlideUrlContent, buildSlideUrlP0, buildSlideUrlP1, buildSlideUrlP2,
      generateSlideUrlOld, h]

/-- Witness for C4 (amended) at a concrete pattern-free address. -/
theorem claim_C4_witness :
    buildSlideUrlContent "https://example.com/current" "Edit Mode" =
      "https://example.com/current" ∧
    buildSlideUrlP0 "https://example.com/current" "Edit Mode" "7" =
      "https://example.com/current" ∧
    buildSlideUrlP1 "https://example.com/current" (some "g1") "Edit Mode" none =
      "https://example.com/current" ∧
    buildSlideUrlP2 "https://example.com/current" (some "g1") =
      "https://example.com/current" ∧
    generateSlideUrlOld "https://example.com/current" "Edit Mode" "7" =
      Except.error "Unable to detect presentation ID" :=
  claim_C4_soft_failure_amended "https://example.com/current" "Edit Mode" "7" (some "g1") none
    (by decide)

/-- C5.  Document-identifier extraction: for every address of the shape
`pre /presentation/d/ id / suf` in which the extraction pattern occurs
nowhere earlier than shown, both cited builders extract exactly `id` — the
segment between `/d/` and the next `/` — whatever path segments or query
strings follow, and substitute exactly that identifier into the produced
URL (via their respective templates). -/
theorem claim_C5_document_id_extraction (pre id suf : List Char) (mode : String)
    (hne : id ≠ []) (hnoslash : ∀ x ∈ id, x ≠ '/')
    (hfirst : noOccurBefore deckLit pre.length
      (pre ++ (deckLit ++ (id ++ '/' :: suf))) = true) :
    deckOf ⟨pre ++ (deckLit ++ (id ++ '/' :: suf))⟩ = some ⟨id⟩ ∧
    buildSlideUrlContent ⟨pre ++ (deckLit ++ (id ++ '/' :: suf))⟩ mode =
      renderContent mode ⟨id⟩
        (resolveSlideContent ⟨pre ++ (deckLit ++ (id ++ '/' :: suf))⟩) ∧
    buildSlideUrlP0 ⟨pre ++ (deckLit ++ (id ++ '/' :: suf))⟩ mode "" =
      renderP0 mode ⟨id⟩
        ((numSlideOf ⟨pre ++ (deckLit ++ (id ++ '/' :: suf))⟩).getD "0") := by
  have hdeck : scanCaptureP deckLit (fun c => c != '/')
      (pre ++ (deckLit ++ (id ++ '/' :: suf))) = some id := by
    have := scanCaptureP_found deckLit (fun c => c != '/') pre id ('/' :: suf)
      (by decide) hne
      (fun x hx => by simpa using hnoslash x hx)
      (fun x xs hx => by
        obtain ⟨h1, _⟩ := List.cons.inj hx
        rw [← h1]
        decide)
      (noOccurBefore_sound deckLit (by decide) pre.length _ hfirst)
    simpa using this
  have hd : deckOf ⟨pre ++ (deckLit ++ (id ++ '/' :: suf))⟩ = some ⟨id⟩ := by
    simp [deckOf, hdeck]
  exact ⟨hd, by simp [buildSlideUrlContent, hd], by simp [buildSlideUrlP0, hd]⟩

/-- Witness for C5 at a concrete address with trailing path and query. -/
theorem claim_C5_witness :
    deckOf ⟨"https://docs.google.com".data ++
        (deckLit ++ ("ABC123".data ++ '/' :: "edit?x=1#slide=9".data))⟩ =
      some ⟨"ABC123".data⟩ ∧
    buildSlideUrlContent ⟨"https://docs.google.com".data ++
        (deckLit ++ ("ABC123".data ++ '/' :: "edit?x=1#slide=9".data))⟩ "EDIT" =
      renderContent "EDIT" ⟨"ABC123".data⟩
        (resolveSlideContent ⟨"https://docs.google.com".data ++
          (deckLit ++ ("ABC123".data ++ '/' :: "edit?x=1#slide=9".data))⟩) ∧
    buildSlideUrlP0 ⟨"https://docs.google.com".data ++
        (deckLit ++ ("ABC123".data ++ '/' :: "edit?x=1#slide=9".data))⟩ "EDIT" "" =
      renderP0 "EDIT" ⟨"ABC123".data⟩
        ((numSlideOf ⟨"https://docs.google.com".data ++
          (deckLit ++ ("ABC123".data ++ '/' :: "edit?x=1#slide=9".data))⟩).getD "0") :=
  claim_C5_document_id_extraction "https://docs.google.com".data "ABC123".data
    "edit?x=1#slide=9".data "EDIT" (by decide) (by decide) (by decide)

/-- Counterexample to C6 as stated: part_000's `buildSlideUrl` — the one
variant that accepts an explicit slide override — never tries the
id-prefixed fragment pattern when no override is supplied.  On an address
whose fragment carries the primary id-prefixed form (`#slide=id.p7`, capture
`p7`), it resolves the slide to the sentinel `0`, not to `p7` as the claimed
resolution order requires. -/
theorem claim_C6_counterexample :
    idSlideOf "https://docs.google.com/presentation/d/XYZ/edit#slide=id.p7" = some "p7" ∧
    buildSlideUrlP0 "https://docs.google.com/presentation/d/XYZ/edit#slide=id.p7" "Edit" "" =
      "https://docs.google.com/presentation/d/XYZ/edit#slide=0" ∧
    buildSlideUrlP0 "https://docs.google.com/presentation/d/XYZ/edit#slide=id.p7" "Edit" "" ≠
      "https://docs.google.com/presentation/d/XYZ/edit#slide=p7" := by
  refine ⟨by rfl, by rfl, by decide⟩

/-- C6 (amended).  Slide-identifier resolution: in part_000's builder (the
variant with an override parameter) a non-empty explicit override is used
regardless of the address's fragment, and with no override only the numeric
`#slide=(\d+)` pattern is tried before defaulting to `0`; in content.js's
builder (which has no override parameter) resolution tries the id-prefixed
fragment pattern first, then the numeric pattern, and otherwise defaults to
the sentinel `0`. -/
theorem claim_C6_slide_resolution_amended (href mode sn pid : String)
    (h : deckOf href = some pid) :
    (sn ≠ "" → buildSlideUrlP0 href mode sn = renderP0 mode pid sn) ∧
    buildSlideUrlP0 href mode "" = renderP0 mode pid ((numSlideOf href).getD "0") ∧
    buildSlideUrlContent href mode = renderContent mode pid (resolveSlideContent href) ∧
    (∀ s, idSlideOf href = some s → resolveSlideContent href = s) ∧
    (idSlideOf href = none → ∀ s, numSlideOf href = some s → resolveSlideContent href = s) ∧
    (idSlideOf href = none → numSlideOf href = none → resolveSlideContent href = "0") := by
  refine ⟨?_, ?_, ?_, ?_, ?_, ?_⟩
  · intro hsn
    simp [buildSlideUrlP0, h, hsn]
  · simp [buildSlideUrlP0, h]
  · simp [buildSlideUrlContent, h]
  · intro s hs
    simp [resolveSlideContent, hs]
  · intro h1 s h2
    simp [resolveSlideContent, h1, h2]
  · intro h1 h2
    simp [resolveSlideContent, h1, h2]

/-- Witness for C6 (amended) at a concrete address carrying the id-prefixed
fragment form. -/
theorem claim_C6_witness :
    ("9" ≠ "" →
      buildSlideUrlP0 "https://docs.google.com/presentation/d/XYZ/edit#slide=id.p7" "Edit" "9" =
        renderP0 "Edit" "XYZ" "9") ∧
    buildSlideUrlP0 "https://docs.google.com/presentation/d/XYZ/edit#slide=id.p7" "Edit" "" =
      renderP0 "Edit" "XYZ"
        ((numSlideOf "https://docs.google.com/presentation/d/XYZ/edit#slide=id.p7").getD "0") ∧
    buildSlideUrlContent "https://docs.google.com/presentation/d/XYZ/edit#slide=id.p7" "Edit" =
      renderContent "Edit" "XYZ"
        (resolveSlideContent "https://docs.google.com/presentation/d/XYZ/edit#slide=id.p7") ∧
    (∀ s, idSlideOf "https://docs.google.com/presentation/d/XYZ/edit#slide=id.p7" = some s →
      resolveSlideContent "https://docs.google.com/presentation/d/XYZ/edit#slide=id.p7" = s) ∧
    (idSlideOf "https://docs.google.com/presentation/d/XYZ/edit#slide=id.p7" = none →
      ∀ s, numSlideOf "https://docs.google.com/presentation/d/XYZ/edit#slide=id.p7" = some s →
        resolveSlideContent "https://docs.google.com/presentation/d/XYZ/edit#slide=id.p7" = s) ∧
    (idSlideOf "https://docs.google.com/presentation/d/XYZ/edit#slide=id.p7" = none →
      numSlideOf "https://docs.google.com/presentation/d/XYZ/edit#slide=id.p7" = none →
        resolveSlideContent "https://docs.google.com/presentation/d/XYZ/edit#slide=id.p7" = "0") :=
  claim_C6_slide_resolution_amended
    "https://docs.google.com/presentation/d/XYZ/edit#slide=id.p7" "Edit" "9" "XYZ" (by rfl)

/-- Counterexample to C7 as stated: on the spec's address the builder does
NOT preserve the input's host — it always emits the fixed
`https://docs.google.com` host of its templates — so the output differs from
the claimed echo of the input address. -/
theorem claim_C7_counterexample :
    buildSlideUrlContent
        "https://docs.example.com/presentation/d/ABC123/edit#slide=id.p7" "EDIT" =
      "https://docs.google.com/presentation/d/ABC123/edit#slide=id.p7" ∧
    "https://docs.google.com/presentation/d/ABC123/edit#slide=id.p7" ≠
      "https://docs.example.com/presentation/d/ABC123/edit#slide=id.p7" := by
  refine ⟨by rfl, by decide⟩

/-- C7 (amended).  End-to-end scenario on
`https://docs.example.com/presentation/d/ABC123/edit#slide=id.p7`: in mode
`EDIT` the builder returns
`https://docs.google.com/presentation/d/ABC123/edit#slide=id.p7` and in mode
`PREVIEW` it returns
`https://docs.google.com/presentation/d/ABC123/preview?rm=minimal&slide=id.p7`
— document id `ABC123` and slide id `p7` are preserved and the two modes use
internally consistent templates over the fixed `docs.google.com` host; the
input's host is not echoed. -/
theorem claim_C7_end_to_end_amended :
    buildSlideUrlContent
        "https://docs.example.com/presentation/d/ABC123/edit#slide=id.p7" "EDIT" =
      "https://docs.google.com/presentation/d/ABC123/edit#slide=id.p7" ∧
    buildSlideUrlContent
        "https://docs.example.com/presentation/d/ABC123/edit#slide=id.p7" "PREVIEW" =
      "https://docs.google.com/presentation/d/ABC123/preview?rm=minimal&slide=id.p7" := by
  exact ⟨rfl, rfl⟩

/-! ## Claims about the responder contracts -/

/-- C8.  Responder contract (part_000 top frame): a reply is produced if and
only if the inbound message carries the `REQUEST_SLIDE_URL` discriminator
(everything else is discarded without reply, and the handler, being total,
raises no error), and every reply carries the URL computed by the top
frame's builder together with a requestId exactly equal to the one received.
(The reply is posted to `evt.source`, the originating frame.) -/
theorem claim_C8_responder_contract (href : String) (m : Option ReqMsg) :
    ((respondTop href m).isSome ↔ ∃ d, m = some d ∧ d.ty = "REQUEST_SLIDE_URL") ∧
    (∀ d, m = some d → d.ty = "REQUEST_SLIDE_URL" →
      respondTop href m =
        some ⟨"SLIDE_URL", buildSlideUrlP0 href d.mode d.slideNumber, d.requestId⟩) := by
  cases m with
  | none =>
    refine ⟨?_, ?_⟩
    · simp [respondTop]
    · intro d hd
      exact absurd hd (by simp)
  | some d =>
    by_cases hty : d.ty = "REQUEST_SLIDE_URL"
    · refine ⟨?_, ?_⟩
      · simp [respondTop, hty]
      · intro d' hd' _
        obtain rfl := Option.some.inj hd'
        simp [respondTop, hty]
    · refine ⟨?_, ?_⟩
      · simp [respondTop, hty]
      · intro d' hd' hty'
        obtain rfl := Option.some.inj hd'
        exact absurd hty' hty

/-- Witness for C8: a protocol request gets the echoed requestId and built
URL; a non-protocol message gets no reply. -/
theorem claim_C8_witness :
    ((respondTop "https://docs.google.com/presentation/d/QQ/edit#slide=7"
        (some ⟨"REQUEST_SLIDE_URL", "Preview", "", "r9"⟩)).isSome ↔
      ∃ d, (some ⟨"REQUEST_SLIDE_URL", "Preview", "", "r9"⟩ : Option ReqMsg) = some d ∧
        d.ty = "REQUEST_SLIDE_URL") ∧
    (∀ d, (some ⟨"REQUEST_SLIDE_URL", "Preview", "", "r9"⟩ : Option ReqMsg) = some d →
      d.ty = "REQUEST_SLIDE_URL" →
      respondTop "https://docs.google.com/presentation/d/QQ/edit#slide=7"
          (some ⟨"REQUEST_SLIDE_URL", "Preview", "", "r9"⟩) =
        some ⟨"SLIDE_URL",
          buildSlideUrlP0 "https://docs.google.com/presentation/d/QQ/edit#slide=7"
            d.mode d.slideNumber, d.requestId⟩) :=
  claim_C8_responder_contract "https://docs.google.com/presentation/d/QQ/edit#slide=7"
    (some ⟨"REQUEST_SLIDE_URL", "Preview", "", "r9"⟩)

/-- C9.  The enhanced variant's second, non-timeout failure path: when the
URL-builder call inside the responder's `try` throws with message `e`, the
responder catches it and replies with a `SLIDE_URL_RESPONSE` carrying
`error: e` and the raw current address as fallback `url`; a requester that
receives a response whose error field is non-empty rejects immediately with
that error (the timeout is cleared first), not by timeout. -/
theorem claim_C9_error_response_path (href : String)
    (build : String → Option String → Except String String) (m : Option Msg1)
    (d : Msg1) (e : String) (hm : m = some d) (hty : d.ty = "GET_SLIDE_URL")
    (hb : build (jsOr d.mode "EDIT") (jsOrNull d.exportFormat) = .error e) :
    mainFrameHandle href build m =
      some ⟨"SLIDE_URL_RESPONSE", href, some e, none, none⟩ ∧
    (e ≠ "" → handleResp1 (mainFrameHandle href build m) = some (.error e)) := by
  subst hm
  have h1 : mainFrameHandle href build (some d) =
      some ⟨"SLIDE_URL_RESPONSE", href, some e, none, none⟩ := by
    simp [mainFrameHandle, hty, hb]
  refine ⟨h1, ?_⟩
  intro he
  rw [h1]
  simp [handleResp1, he]

/-- Witness for C9: a builder that throws `"boom"` produces an error reply
that the requester turns into an immediate rejection. -/
theorem claim_C9_witness :
    mainFrameHandle "https://h" (fun _ _ => .error "boom")
        (some ⟨"GET_SLIDE_URL", "", none⟩) =
      some ⟨"SLIDE_URL_RESPONSE", "https://h", some "boom", none, none⟩ ∧
    ("boom" ≠ "" → handleResp1 (mainFrameHandle "https://h" (fun _ _ => .error "boom")
        (some ⟨"GET_SLIDE_URL", "", none⟩)) = some (.error "boom")) :=
  claim_C9_error_response_path "https://h" (fun _ _ => .error "boom")
    (some ⟨"GET_SLIDE_URL", "", none⟩) ⟨"GET_SLIDE_URL", "", none⟩ "boom" rfl rfl rfl

end SlidesCopy
